import Mathlib

/-!
Shallow embedding of `tiledb/ml/readers/types.py`: the `ArrayParams`
field/shape resolver (`__post_init__`) and the tensor-schema construction
method (`to_tensor_schema`).

Python exceptions are modelled with `Except Err`; Python lists and tuples
with `List`; the insertion-ordered `dict` values with association lists.
The TileDB array handle is modelled by the metadata the two functions
consult: attribute names, dimensions (name plus whether the dimension
dtype is an integer dtype, i.e. `np.issubdtype(dtype, np.integer)`),
the sparse flag, and the non-empty domain bounds per dimension.
-/

/-- Tensor representation kinds (the `TensorKind` enumeration imported from
`_tensor_schema`). -/
inductive TensorKind where
  | DENSE
  | SPARSE_COO
  | SPARSE_CSR
  | RAGGED
deriving DecidableEq, Repr

/-- Python exceptions that `__post_init__` and `to_tensor_schema` can raise:
`ValueError` for an unknown field, `ValueError` from `list.index`,
`IndexError` from list subscription, and the two `NotImplementedError`
raises in `to_tensor_schema`. -/
inductive Err where
  | unknownField (f : String)
  | valueErrorIndex (x : String)
  | indexError
  | notImplSecondary
  | notImplKind (k : TensorKind)
deriving DecidableEq, Repr

/-- Whether the modelled exception is a Python `ValueError`. -/
def Err.isValueError : Err → Bool
  | .unknownField _ => true
  | .valueErrorIndex _ => true
  | _ => false

/-- One dimension of a TileDB array: its name and whether its dtype is an
integer dtype. -/
structure TDBDim where
  name : String
  intDtype : Bool
deriving DecidableEq, Repr

/-- The slice of a TileDB array handle consulted by `types.py`: attribute
names, dimensions, the schema sparse flag, and the non-empty domain (one
bounds pair per dimension, in the array's dimension order). -/
structure TDBArray where
  attrNames : List String
  dims : List TDBDim
  sparse : Bool
  ned : List (Int × Int)
deriving DecidableEq, Repr

/-- Dimension names of the array (`[array.dim(i).name for i in range(array.ndim)]`). -/
def TDBArray.dimNames (a : TDBArray) : List String := a.dims.map (fun d => d.name)

/-- Lookup of `np.issubdtype(array.dim(nm).dtype, np.integer)` by dimension
name; `to_tensor_schema` only ever calls this with names of dimensions of the
array, so the `none` fallback is never reached there. -/
def TDBArray.dimIntByName (a : TDBArray) (nm : String) : Bool :=
  match a.dims.find? (fun d => d.name == nm) with
  | some d => d.intDtype
  | none => false

/-- A secondary-slice value: `Union[int, slice, Sequence[int]]`. -/
inductive SliceVal where
  | single (i : Int)
  | pySlice (start stop step : Option Int)
  | indices (l : List Int)
deriving DecidableEq, Repr

/-- Constructor arguments of `ArrayParams` (the dataclass fields set by the
caller; `_tensor_schema_kwargs` is derived by `__post_init__`, modelled
separately as `TensorSchemaKwargs`). -/
structure ArrayParams where
  array : TDBArray
  key_dim : Int ⊕ String := Sum.inl 0
  fields : List String := []
  secondary_slices : List (String × SliceVal) := []
  tensor_kind : Option TensorKind := none
deriving DecidableEq, Repr

/-- Python list subscription `l[i]` for a non-negative index: `IndexError`
when out of range. -/
def pyGet (l : List α) (i : Nat) : Except Err α :=
  match l[i]? with
  | some a => Except.ok a
  | none => Except.error Err.indexError

/-- Python `l.index(x)` on a list of strings: position of the first
occurrence, `ValueError` when absent. -/
def pyIndex (l : List String) (x : String) : Except Err Nat :=
  match l.findIdx? (fun d => d == x) with
  | some i => Except.ok i
  | none => Except.error (Err.valueErrorIndex x)

/-- Python `l[i], l[j] = l[j], l[i]`: both elements are read first (raising
`IndexError` if either subscript is out of range), then written. -/
def pySwap (l : List α) (i j : Nat) : Except Err (List α) :=
  match pyGet l i, pyGet l j with
  | Except.ok a, Except.ok b => Except.ok ((l.set i b).set j a)
  | Except.error e, _ => Except.error e
  | _, Except.error e => Except.error e

/-- The field-classification loop of `__post_init__`: each requested field
goes to `attrs` if it is a known attribute, else to `dims` if it is a known
dimension, else raises `ValueError` naming the field. Returns
`(attrs, dims)`. -/
def classifyFields (fs all_attrs all_dims : List String) :
    Except Err (List String × List String) :=
  match fs with
  | [] => Except.ok ([], [])
  | f :: rest =>
    if f ∈ all_attrs then
      match classifyFields rest all_attrs all_dims with
      | Except.ok (a, d) => Except.ok (f :: a, d)
      | Except.error e => Except.error e
    else if f ∈ all_dims then
      match classifyFields rest all_attrs all_dims with
      | Except.ok (a, d) => Except.ok (a, f :: d)
      | Except.error e => Except.error e
    else Except.error (Err.unknownField f)

/-- The `if self.fields: ... else: final_fields = attrs = all_attrs` block of
`__post_init__`. Returns `(attrs, dims, final_fields)`. -/
def resolveFields (fields all_attrs all_dims : List String) :
    Except Err (List String × List String × List String) :=
  match fields with
  | [] => Except.ok (all_attrs, [], all_attrs)
  | _ :: _ =>
    match classifyFields fields all_attrs all_dims with
    | Except.ok (a, d) => Except.ok (a, d, fields)
    | Except.error e => Except.error e

/-- Resolution of `key_dim` to an index: an integer is used as given, a name
is looked up with `all_dims.index`. -/
def resolveKeyDim (key_dim : Int ⊕ String) (all_dims : List String) :
    Except Err Int :=
  match key_dim with
  | Sum.inl i => Except.ok i
  | Sum.inr s =>
    match pyIndex all_dims s with
    | Except.ok i => Except.ok (Int.ofNat i)
    | Except.error e => Except.error e

/-- The `if key_dim_index > 0:` swap block of `__post_init__`: positions `0`
and `key_dim_index` of `all_dims` and of `ned` are exchanged. -/
def applyKeySwap (k : Int) (all_dims : List String) (ned : List (Int × Int)) :
    Except Err (List String × List (Int × Int)) :=
  if 0 < k then
    match pySwap all_dims 0 k.toNat with
    | Except.error e => Except.error e
    | Except.ok ad =>
      match pySwap ned 0 k.toNat with
      | Except.error e => Except.error e
      | Except.ok nd => Except.ok (ad, nd)
  else Except.ok (all_dims, ned)

/-- The secondary-slice loop of `__post_init__`: each key of
`secondary_slices` is looked up in the (already swapped) `all_dims`
(`ValueError` when absent) and the entry is kept, keyed by that index, only
when the index is positive. -/
def secondaryIndices (ss : List (String × SliceVal)) (all_dims : List String) :
    Except Err (List (Nat × SliceVal)) :=
  match ss with
  | [] => Except.ok []
  | (dim, sl) :: rest =>
    match pyIndex all_dims dim with
    | Except.error e => Except.error e
    | Except.ok i =>
      match secondaryIndices rest all_dims with
      | Except.error e => Except.error e
      | Except.ok tail =>
        Except.ok (if 0 < i then (i, sl) :: tail else tail)

/-- The `_tensor_schema_kwargs` dictionary computed by `__post_init__`:
`_array`, `_key_dim_index`, `_fields`, `_all_dims`, `_ned`,
`_secondary_slices`, and `_query_kwargs` (its `attrs` and `dims` entries). -/
structure TensorSchemaKwargs where
  array : TDBArray
  key_dim_index : Int
  fields : List String
  all_dims : List String
  ned : List (Int × Int)
  secondary_slices : List (Nat × SliceVal)
  query_attrs : List String
  query_dims : List String
deriving DecidableEq, Repr

/-- The body of `ArrayParams.__post_init__`, in source order: classify the
requested fields, resolve the key dimension, swap it (and the non-empty
domain) to position 0 when its index is positive, then resolve the
secondary slices against the swapped dimension order. -/
def post_init (p : ArrayParams) : Except Err TensorSchemaKwargs :=
  match resolveFields p.fields p.array.attrNames p.array.dimNames with
  | Except.error e => Except.error e
  | Except.ok (attrs, dims, final_fields) =>
    match resolveKeyDim p.key_dim p.array.dimNames with
    | Except.error e => Except.error e
    | Except.ok key_dim_index =>
      match applyKeySwap key_dim_index p.array.dimNames p.array.ned with
      | Except.error e => Except.error e
      | Except.ok (all_dims, ned) =>
        match secondaryIndices p.secondary_slices all_dims with
        | Except.error e => Except.error e
        | Except.ok ssi =>
          Except.ok {
            array := p.array
            key_dim_index := key_dim_index
            fields := final_fields
            all_dims := all_dims
            ned := ned
            secondary_slices := ssi
            query_attrs := attrs
            query_dims := dims }

/-- A transform-table value: Python booleans or a callable (callables are
identified abstractly by a number; any callable is truthy). -/
inductive Transform where
  | bool (b : Bool)
  | func (f : Nat)
deriving DecidableEq, Repr

/-- Python truthiness of a transform-table value. -/
def transformTruthy : Transform → Bool
  | Transform.bool b => b
  | Transform.func _ => true

/-- Python `transforms.get(k, True)` on the transform table. -/
def transformsGet (ts : List (TensorKind × Transform)) (k : TensorKind) :
    Transform :=
  match ts.find? (fun e => e.1 == k) with
  | some e => e.2
  | none => Transform.bool true

/-- Result of `to_tensor_schema`: the factory from `TensorSchemaFactories`
is keyed by the chosen kind and receives `_tensor_schema_kwargs`; a callable
transform wraps the result in `MappedTensorSchema`, recorded here by
`mappedBy`. -/
structure TensorSchema where
  kind : TensorKind
  kwargs : TensorSchemaKwargs
  mappedBy : Option Nat
deriving DecidableEq, Repr

/-- The tensor-kind selection block at the top of `to_tensor_schema`,
verbatim from the source: the pinned kind if any; else `DENSE` when the
schema is not sparse; else `RAGGED` when not all of `_all_dims[1:]` have an
integer dtype; else `SPARSE_COO` when `ndim != 2` or
`transforms.get(SPARSE_CSR, True)` is falsy; else `SPARSE_CSR`. -/
def inferKind (p : ArrayParams) (kw : TensorSchemaKwargs)
    (transforms : List (TensorKind × Transform)) : TensorKind :=
  match p.tensor_kind with
  | some k => k
  | none =>
    if p.array.sparse = false then TensorKind.DENSE
    else if ((kw.all_dims.drop 1).all (fun nm => p.array.dimIntByName nm))
        = false then TensorKind.RAGGED
    else if p.array.dims.length ≠ 2 ∨
        transformTruthy (transformsGet transforms TensorKind.SPARSE_CSR)
          = false then TensorKind.SPARSE_COO
    else TensorKind.SPARSE_CSR

/-- The body of `ArrayParams.to_tensor_schema` (with the kwargs coming from
`__post_init__`): select the kind, reject a non-`DENSE` kind combined with a
non-empty raw `secondary_slices` dict, then consult the transform table:
`False` raises, `True` or a missing entry returns the schema unwrapped, a
callable wraps it in `MappedTensorSchema`. -/
def to_tensor_schema (p : ArrayParams)
    (transforms : List (TensorKind × Transform)) : Except Err TensorSchema :=
  match post_init p with
  | Except.error e => Except.error e
  | Except.ok kw =>
    if inferKind p kw transforms ≠ TensorKind.DENSE ∧
        p.secondary_slices.length > 0 then
      Except.error Err.notImplSecondary
    else
      match transformsGet transforms (inferKind p kw transforms) with
      | Transform.bool false =>
        Except.error (Err.notImplKind (inferKind p kw transforms))
      | Transform.bool true =>
        Except.ok { kind := inferKind p kw transforms, kwargs := kw,
                    mappedBy := none }
      | Transform.func f =>
        Except.ok { kind := inferKind p kw transforms, kwargs := kw,
                    mappedBy := some f }

deriving instance DecidableEq for Except

/-- The transposition of positions `0` and `k`, the permutation that the
key-dimension swap applies to the dimension list and the non-empty domain. -/
def transposeIdx (k i : Nat) : Nat :=
  if i = 0 then k else if i = k then 0 else i

/-- The first requested field that is neither a known attribute nor a known
dimension, if any. -/
def firstUnknown (fields all_attrs all_dims : List String) : Option String :=
  fields.find? (fun f => decide (f ∉ all_attrs ∧ f ∉ all_dims))

/-- Tensor-kind selection as worded by the specification: when no kind is
pinned, `DENSE` for dense storage; `RAGGED` when some non-key dimension has
a non-integer dtype; `SPARSE_COO` when the array is not 2-dimensional or the
transform table maps `SPARSE_CSR` to `False`; `SPARSE_CSR` otherwise. A
pinned kind is used as given. -/
def specTensorKindC2 (p : ArrayParams) (kw : TensorSchemaKwargs)
    (transforms : List (TensorKind × Transform)) : TensorKind :=
  match p.tensor_kind with
  | some k => k
  | none =>
    if p.array.sparse = false then TensorKind.DENSE
    else if (kw.all_dims.drop 1).any (fun nm => ! p.array.dimIntByName nm)
      then TensorKind.RAGGED
    else if p.array.dims.length ≠ 2 ∨
        transformsGet transforms TensorKind.SPARSE_CSR = Transform.bool false
      then TensorKind.SPARSE_COO
    else TensorKind.SPARSE_CSR

/-! Example fixtures used by the witness and counterexample theorems. -/

/-- Example sparse 3-dimensional array: two attributes, integer dimensions
`d0` and `d1`, non-integer dimension `d2`. -/
def exArrA : TDBArray :=
  { attrNames := ["a1", "a2"]
    dims := [{ name := "d0", intDtype := true },
             { name := "d1", intDtype := true },
             { name := "d2", intDtype := false }]
    sparse := true
    ned := [(0, 9), (0, 19), (0, 29)] }

/-- Example dense 2-dimensional array. -/
def exArrD : TDBArray :=
  { attrNames := ["x"]
    dims := [{ name := "d0", intDtype := true },
             { name := "d1", intDtype := true }]
    sparse := false
    ned := [(0, 9), (0, 4)] }

/-- Example sparse 2-dimensional array with integer dimensions. -/
def exArrS2 : TDBArray :=
  { attrNames := ["v"]
    dims := [{ name := "r", intDtype := true },
             { name := "c", intDtype := true }]
    sparse := true
    ned := [(0, 9), (0, 9)] }

/-! Helper lemmas about the embedded operations. -/

theorem pyGet_ok {α : Type} {l : List α} {i : Nat} {a : α}
    (h : pyGet l i = Except.ok a) : l[i]? = some a := by
  unfold pyGet at h
  split at h
  · rename_i b hb
    cases h
    exact hb
  · exact Except.noConfusion h

theorem pyIndex_ok {l : List String} {x : String} {i : Nat}
    (h : pyIndex l x = Except.ok i) :
    l.findIdx? (fun d => d == x) = some i := by
  unfold pyIndex at h
  split at h
  · rename_i j hj
    cases h
    exact hj
  · exact Except.noConfusion h

theorem pyIndex_ok_getElem? {l : List String} {x : String} {i : Nat}
    (h : pyIndex l x = Except.ok i) : l[i]? = some x := by
  have hj := pyIndex_ok h
  rcases List.findIdx?_eq_some_iff_getElem.mp hj with ⟨hlen, hp, _⟩
  simp only [beq_iff_eq] at hp
  rw [List.getElem?_eq_getElem hlen, hp]

theorem transposeIdx_zero (i : Nat) : transposeIdx 0 i = i := by
  unfold transposeIdx
  split_ifs <;> omega

theorem transposeIdx_involutive (k i : Nat) :
    transposeIdx k (transposeIdx k i) = i := by
  unfold transposeIdx
  split_ifs <;> omega

theorem transposeIdx_lt {k i n : Nat} (hk : k < n) (hi : i < n) :
    transposeIdx k i < n := by
  unfold transposeIdx
  split_ifs <;> omega

theorem pySwap_getElem? {α : Type} {l l' : List α} {k : Nat}
    (h : pySwap l 0 k = Except.ok l') (i : Nat) :
    l'[i]? = l[transposeIdx k i]? := by
  unfold pySwap at h
  split at h
  · rename_i a b heqa heqb
    have h0 := pyGet_ok heqa
    have hkk := pyGet_ok heqb
    have hl0 : 0 < l.length := by
      by_contra hc
      rw [List.getElem?_eq_none (by omega)] at h0
      exact Option.noConfusion h0
    have hlk : k < l.length := by
      by_contra hc
      rw [List.getElem?_eq_none (by omega)] at hkk
      exact Option.noConfusion hkk
    cases h
    rw [List.getElem?_set, List.length_set]
    unfold transposeIdx
    by_cases hik : k = i
    · rw [if_pos hik, if_pos (hik ▸ hlk)]
      subst hik
      by_cases hk0 : k = 0
      · subst hk0
        rw [if_pos rfl]
        exact h0.symm
      · rw [if_neg hk0, if_pos rfl]
        exact h0.symm
    · rw [if_neg hik, List.getElem?_set]
      by_cases hi0 : i = 0
      · subst hi0
        rw [if_pos rfl, if_pos hl0, if_pos rfl]
        exact hkk.symm
      · rw [if_neg (fun hc => hi0 hc.symm), if_neg hi0,
          if_neg (fun hc => hik hc.symm)]
  · exact Except.noConfusion h
  · exact Except.noConfusion h

theorem applyKeySwap_getElem? {k : Int} {dims ad : List String}
    {ned nd : List (Int × Int)}
    (h : applyKeySwap k dims ned = Except.ok (ad, nd)) :
    (∀ i, ad[i]? = dims[transposeIdx k.toNat i]?) ∧
    (∀ i, nd[i]? = ned[transposeIdx k.toNat i]?) := by
  unfold applyKeySwap at h
  split at h
  · split at h
    · exact Except.noConfusion h
    · rename_i ad' had
      split at h
      · exact Except.noConfusion h
      · rename_i nd' hnd
        cases h
        exact ⟨pySwap_getElem? had, pySwap_getElem? hnd⟩
  · rename_i hk
    cases h
    have hz : k.toNat = 0 := by omega
    rw [hz]
    constructor <;> intro i <;> rw [transposeIdx_zero]

theorem post_init_ok_elim {p : ArrayParams} {kw : TensorSchemaKwargs}
    (h : post_init p = Except.ok kw) :
    resolveFields p.fields p.array.attrNames p.array.dimNames =
        Except.ok (kw.query_attrs, kw.query_dims, kw.fields) ∧
    resolveKeyDim p.key_dim p.array.dimNames = Except.ok kw.key_dim_index ∧
    applyKeySwap kw.key_dim_index p.array.dimNames p.array.ned =
        Except.ok (kw.all_dims, kw.ned) ∧
    secondaryIndices p.secondary_slices kw.all_dims =
        Except.ok kw.secondary_slices ∧
    kw.array = p.array := by
  unfold post_init at h
  split at h
  · exact Except.noConfusion h
  · rename_i res attrs dims ff hrf
    split at h
    · exact Except.noConfusion h
    · rename_i kd hkd
      split at h
      · exact Except.noConfusion h
      · rename_i res2 ad nd hsw
        split at h
        · exact Except.noConfusion h
        · rename_i ssi hssi
          cases h
          exact ⟨hrf, hkd, hsw, hssi, rfl⟩

theorem pyGet_error {α : Type} {l : List α} {i : Nat} {e : Err}
    (h : pyGet l i = Except.error e) : e = Err.indexError := by
  unfold pyGet at h
  split at h
  · exact Except.noConfusion h
  · injection h with h'
    exact h'.symm

theorem pyIndex_error {l : List String} {x : String} {e : Err}
    (h : pyIndex l x = Except.error e) : e = Err.valueErrorIndex x := by
  unfold pyIndex at h
  split at h
  · exact Except.noConfusion h
  · injection h with h'
    exact h'.symm

theorem pySwap_error {α : Type} {l : List α} {i j : Nat} {e : Err}
    (h : pySwap l i j = Except.error e) : e = Err.indexError := by
  unfold pySwap at h
  cases hg1 : pyGet l i with
  | ok a =>
    rw [hg1] at h
    cases hg2 : pyGet l j with
    | ok b =>
      rw [hg2] at h
      exact Except.noConfusion h
    | error e2 =>
      rw [hg2] at h
      injection h with h'
      exact h'.symm.trans (pyGet_error hg2)
  | error e1 =>
    rw [hg1] at h
    cases hg2 : pyGet l j with
    | ok b =>
      rw [hg2] at h
      injection h with h'
      exact h'.symm.trans (pyGet_error hg1)
    | error e2 =>
      rw [hg2] at h
      injection h with h'
      exact h'.symm.trans (pyGet_error hg1)

theorem resolveKeyDim_error {kd : Int ⊕ String} {dims : List String} {e : Err}
    (h : resolveKeyDim kd dims = Except.error e) :
    ∃ s, e = Err.valueErrorIndex s := by
  cases kd with
  | inl i => simp [resolveKeyDim] at h
  | inr s =>
    simp only [resolveKeyDim] at h
    split at h
    · exact Except.noConfusion h
    · rename_i e' he
      injection h with h'
      exact ⟨s, h'.symm.trans (pyIndex_error he)⟩

theorem applyKeySwap_error {k : Int} {dims : List String}
    {ned : List (Int × Int)} {e : Err}
    (h : applyKeySwap k dims ned = Except.error e) : e = Err.indexError := by
  unfold applyKeySwap at h
  split at h
  · split at h
    · rename_i e' he
      injection h with h'
      exact h'.symm.trans (pySwap_error he)
    · split at h
      · rename_i e' he
        injection h with h'
        exact h'.symm.trans (pySwap_error he)
      · exact Except.noConfusion h
  · exact Except.noConfusion h

theorem secondaryIndices_error {ss : List (String × SliceVal)}
    {dims : List String} {e : Err}
    (h : secondaryIndices ss dims = Except.error e) :
    ∃ s, e = Err.valueErrorIndex s := by
  induction ss with
  | nil => simp [secondaryIndices] at h
  | cons d rest ih =>
    obtain ⟨dim, sl⟩ := d
    unfold secondaryIndices at h
    split at h
    · rename_i e' he
      injection h with h'
      exact ⟨dim, h'.symm.trans (pyIndex_error he)⟩
    · split at h
      · rename_i e' he
        injection h with h'
        subst h'
        exact ih he
      · exact Except.noConfusion h

theorem classifyFields_error_elim {fs A D : List String} {e : Err}
    (h : classifyFields fs A D = Except.error e) :
    ∃ g, e = Err.unknownField g ∧ firstUnknown fs A D = some g := by
  induction fs with
  | nil => simp [classifyFields] at h
  | cons f rest ih =>
    unfold classifyFields at h
    by_cases hA : f ∈ A
    · rw [if_pos hA] at h
      split at h
      · exact Except.noConfusion h
      · rename_i e' he
        injection h with h'
        obtain ⟨g, hg, hfu⟩ := ih (h' ▸ he)
        refine ⟨g, hg, ?_⟩
        unfold firstUnknown at hfu ⊢
        rw [List.find?_cons_of_neg _ (by simp [hA])]
        exact hfu
    · by_cases hD : f ∈ D
      · rw [if_neg hA, if_pos hD] at h
        split at h
        · exact Except.noConfusion h
        · rename_i e' he
          injection h with h'
          obtain ⟨g, hg, hfu⟩ := ih (h' ▸ he)
          refine ⟨g, hg, ?_⟩
          unfold firstUnknown at hfu ⊢
          rw [List.find?_cons_of_neg _ (by simp [hA, hD])]
          exact hfu
      · rw [if_neg hA, if_neg hD] at h
        injection h with h'
        refine ⟨f, h'.symm, ?_⟩
        unfold firstUnknown
        rw [List.find?_cons_of_pos _ (by simp [hA, hD])]

theorem classifyFields_error_intro {fs A D : List String} {g : String}
    (h : firstUnknown fs A D = some g) :
    classifyFields fs A D = Except.error (Err.unknownField g) := by
  induction fs with
  | nil => simp [firstUnknown] at h
  | cons f rest ih =>
    unfold firstUnknown at h
    by_cases hA : f ∈ A
    · rw [List.find?_cons_of_neg _ (by simp [hA])] at h
      have hr := ih h
      unfold classifyFields
      rw [if_pos hA, hr]
    · by_cases hD : f ∈ D
      · rw [List.find?_cons_of_neg _ (by simp [hA, hD])] at h
        have hr := ih h
        unfold classifyFields
        rw [if_neg hA, if_pos hD, hr]
      · rw [List.find?_cons_of_pos _ (by simp [hA, hD])] at h
        injection h with h'
        subst h'
        unfold classifyFields
        rw [if_neg hA, if_neg hD]

theorem resolveFields_error_elim {fields A D : List String} {e : Err}
    (h : resolveFields fields A D = Except.error e) :
    ∃ g, e = Err.unknownField g ∧ firstUnknown fields A D = some g := by
  unfold resolveFields at h
  split at h
  · exact Except.noConfusion h
  · split at h
    · exact Except.noConfusion h
    · rename_i e' he
      injection h with h'
      exact classifyFields_error_elim (h' ▸ he)

theorem resolveFields_error_intro {fields A D : List String} {g : String}
    (h : firstUnknown fields A D = some g) :
    resolveFields fields A D = Except.error (Err.unknownField g) := by
  cases fields with
  | nil => simp [firstUnknown] at h
  | cons f rest =>
    have hc := classifyFields_error_intro h
    unfold resolveFields
    rw [hc]

theorem post_init_error_of_fields {p : ArrayParams} {e : Err}
    (h : resolveFields p.fields p.array.attrNames p.array.dimNames =
      Except.error e) :
    post_init p = Except.error e := by
  unfold post_init
  rw [h]

theorem classifyFields_attr_mem : ∀ {fs A D a d : List String} {f : String},
    classifyFields fs A D = Except.ok (a, d) → f ∈ fs → f ∈ A → f ∈ a := by
  intro fs
  induction fs with
  | nil =>
    intro A D a d f h hf ha
    simp at hf
  | cons g rest ih =>
    intro A D a d f h hf ha
    unfold classifyFields at h
    by_cases hA : g ∈ A
    · rw [if_pos hA] at h
      cases hrec : classifyFields rest A D with
      | error e =>
        rw [hrec] at h
        exact Except.noConfusion h
      | ok ad =>
        obtain ⟨a', d'⟩ := ad
        rw [hrec] at h
        injection h with h2
        have haa : g :: a' = a := congrArg (fun t => t.1) h2
        subst haa
        cases List.mem_cons.mp hf with
        | inl hfg =>
          subst hfg
          exact List.mem_cons_self _ _
        | inr hfr => exact List.mem_cons_of_mem _ (ih hrec hfr ha)
    · rw [if_neg hA] at h
      by_cases hD : g ∈ D
      · rw [if_pos hD] at h
        cases hrec : classifyFields rest A D with
        | error e =>
          rw [hrec] at h
          exact Except.noConfusion h
        | ok ad =>
          obtain ⟨a', d'⟩ := ad
          rw [hrec] at h
          injection h with h2
          have haa : a' = a := congrArg (fun t => t.1) h2
          subst haa
          cases List.mem_cons.mp hf with
          | inl hfg =>
            subst hfg
            exact absurd ha hA
          | inr hfr => exact ih hrec hfr ha
      · rw [if_neg hD] at h
        exact Except.noConfusion h

theorem classifyFields_dims_disjoint : ∀ {fs A D a d : List String},
    classifyFields fs A D = Except.ok (a, d) → ∀ x ∈ d, x ∉ A := by
  intro fs
  induction fs with
  | nil =>
    intro A D a d h x hx
    unfold classifyFields at h
    injection h with h2
    have hdd : ([] : List String) = d := congrArg (fun t => t.2) h2
    rw [← hdd] at hx
    simp at hx
  | cons g rest ih =>
    intro A D a d h x hx
    unfold classifyFields at h
    by_cases hA : g ∈ A
    · rw [if_pos hA] at h
      cases hrec : classifyFields rest A D with
      | error e =>
        rw [hrec] at h
        exact Except.noConfusion h
      | ok ad =>
        obtain ⟨a', d'⟩ := ad
        rw [hrec] at h
        injection h with h2
        have hdd : d' = d := congrArg (fun t => t.2) h2
        subst hdd
        exact ih hrec x hx
    · rw [if_neg hA] at h
      by_cases hD : g ∈ D
      · rw [if_pos hD] at h
        cases hrec : classifyFields rest A D with
        | error e =>
          rw [hrec] at h
          exact Except.noConfusion h
        | ok ad =>
          obtain ⟨a', d'⟩ := ad
          rw [hrec] at h
          injection h with h2
          have hdd : g :: d' = d := congrArg (fun t => t.2) h2
          subst hdd
          cases List.mem_cons.mp hx with
          | inl hxg =>
            subst hxg
            exact hA
          | inr hxr => exact ih hrec x hxr
      · rw [if_neg hD] at h
        exact Except.noConfusion h

theorem secondaryIndices_ok_eq : ∀ {ss : List (String × SliceVal)}
    {dims : List String} {r : List (Nat × SliceVal)},
    secondaryIndices ss dims = Except.ok r →
    r = ss.filterMap (fun ds =>
      match dims.findIdx? (fun d => d == ds.1) with
      | some i => if 0 < i then some (i, ds.2) else none
      | none => none) := by
  intro ss
  induction ss with
  | nil =>
    intro dims r h
    injection h with h'
    subst h'
    rfl
  | cons dsl rest ih =>
    intro dims r h
    obtain ⟨dim, sl⟩ := dsl
    unfold secondaryIndices at h
    cases hpi : pyIndex dims dim with
    | error e =>
      rw [hpi] at h
      exact Except.noConfusion h
    | ok i =>
      rw [hpi] at h
      cases hr : secondaryIndices rest dims with
      | error e =>
        rw [hr] at h
        exact Except.noConfusion h
      | ok tail =>
        rw [hr] at h
        injection h with h'
        subst h'
        rw [List.filterMap_cons]
        simp only [pyIndex_ok hpi]
        by_cases h0 : 0 < i
        · rw [if_pos h0, if_pos h0, ih hr]
        · rw [if_neg h0, if_neg h0]
          exact ih hr

theorem secondaryIndices_ok_keys : ∀ {ss : List (String × SliceVal)}
    {dims : List String} {r : List (Nat × SliceVal)},
    secondaryIndices ss dims = Except.ok r → ∀ ds ∈ ss, ds.1 ∈ dims := by
  intro ss
  induction ss with
  | nil =>
    intro dims r h ds hds
    simp at hds
  | cons dsl rest ih =>
    intro dims r h ds hds
    obtain ⟨dim, sl⟩ := dsl
    unfold secondaryIndices at h
    cases hpi : pyIndex dims dim with
    | error e =>
      rw [hpi] at h
      exact Except.noConfusion h
    | ok i =>
      rw [hpi] at h
      cases hr : secondaryIndices rest dims with
      | error e =>
        rw [hr] at h
        exact Except.noConfusion h
      | ok tail =>
        cases List.mem_cons.mp hds with
        | inl hd =>
          subst hd
          exact List.getElem?_mem (pyIndex_ok_getElem? hpi)
        | inr hr2 => exact ih hr ds hr2

theorem applyKeySwap_mem {k : Int} {dims ad : List String}
    {ned nd : List (Int × Int)}
    (h : applyKeySwap k dims ned = Except.ok (ad, nd)) (x : String) :
    x ∈ ad ↔ x ∈ dims := by
  have hg := (applyKeySwap_getElem? h).1
  constructor
  · intro hx
    rcases List.mem_iff_getElem?.mp hx with ⟨i, hi⟩
    rw [hg i] at hi
    exact List.getElem?_mem hi
  · intro hx
    rcases List.mem_iff_getElem?.mp hx with ⟨i, hi⟩
    refine List.mem_iff_getElem?.mpr ⟨transposeIdx k.toNat i, ?_⟩
    rw [hg (transposeIdx k.toNat i), transposeIdx_involutive]
    exact hi

/-! Claim C3: an unknown requested field fails resolution with a
`ValueError` naming the first offending identifier, and no other situation
produces that error. -/

/-- C3: `__post_init__` raises `ValueError` naming field `g` exactly when
`g` is the first requested field that is neither a known attribute name nor
a known dimension name; in particular, when every requested field is known,
resolution never raises this error. -/
theorem c3_unknown_field (p : ArrayParams) (g : String) :
    post_init p = Except.error (Err.unknownField g) ↔
      firstUnknown p.fields p.array.attrNames p.array.dimNames = some g := by
  constructor
  · intro h
    unfold post_init at h
    split at h
    · rename_i e hrf
      injection h with h'
      subst h'
      obtain ⟨g', hg', hfu⟩ := resolveFields_error_elim hrf
      injection hg' with hgg
      subst hgg
      exact hfu
    · split at h
      · rename_i e2 hkd
        injection h with h2
        obtain ⟨s, hs⟩ := resolveKeyDim_error hkd
        rw [hs] at h2
        exact Err.noConfusion h2
      · split at h
        · rename_i e2 hsw
          injection h with h2
          rw [applyKeySwap_error hsw] at h2
          exact Err.noConfusion h2
        · split at h
          · rename_i e2 hsi
            injection h with h2
            obtain ⟨s, hs⟩ := secondaryIndices_error hsi
            rw [hs] at h2
            exact Err.noConfusion h2
          · exact Except.noConfusion h
  · intro h
    exact post_init_error_of_fields (resolveFields_error_intro h)

/-! Claim C1: placement of the key dimension and reordering of the
non-empty domain. The resolver swaps position `0` with the key position, a
transposition; it does not slide the key dimension forward, so for arrays
of three or more dimensions with the key dimension at index 2 or later the
relative order of the remaining dimensions is not preserved. -/

/-- Parameters selecting the last dimension of the 3-d array as key. -/
def exPC1 : ArrayParams := { array := exArrA, key_dim := Sum.inr "d2" }

/-- The kwargs `__post_init__` computes for `exPC1`. -/
def exKwC1 : TensorSchemaKwargs :=
  { array := exArrA
    key_dim_index := 2
    fields := ["a1", "a2"]
    all_dims := ["d2", "d1", "d0"]
    ned := [(0, 29), (0, 19), (0, 9)]
    secondary_slices := []
    query_attrs := ["a1", "a2"]
    query_dims := [] }

/-- C1 counterexample: selecting key dimension `d2` of the array with
dimensions `[d0, d1, d2]` yields resolved order `[d2, d1, d0]`, so the
non-key dimensions appear as `[d1, d0]` — the relative order of the other
dimensions is not preserved from the original `[d0, d1]`. -/
theorem c1_counterexample :
    post_init exPC1 = Except.ok exKwC1 ∧
    exKwC1.all_dims.erase "d2" ≠ exPC1.array.dimNames.erase "d2" := by
  constructor
  · rfl
  · decide

/-- C1 (amended): after resolution the key dimension occupies logical
position 0 and the resolved dimension list is the original one with
positions `0` and `key_dim_index` transposed (so the original first
dimension takes the key dimension's former place while dimensions at other
positions stay put); the non-empty-domain bounds are reordered by exactly
the same transposition. -/
theorem c1_amended (p : ArrayParams) (kw : TensorSchemaKwargs) (k : Nat)
    (h : post_init p = Except.ok kw) (hkd : kw.key_dim_index = Int.ofNat k) :
    (∀ i, kw.all_dims[i]? = p.array.dimNames[transposeIdx k i]?) ∧
    (∀ i, kw.ned[i]? = p.array.ned[transposeIdx k i]?) ∧
    (∀ s, p.key_dim = Sum.inr s → kw.all_dims[0]? = some s) := by
  obtain ⟨hrf, hkdr, hsw, hssi, harr⟩ := post_init_ok_elim h
  rw [hkd] at hsw
  have hswg := applyKeySwap_getElem? hsw
  have htn : (Int.ofNat k).toNat = k := rfl
  rw [htn] at hswg
  refine ⟨hswg.1, hswg.2, ?_⟩
  intro s hs
  rw [hs] at hkdr
  simp only [resolveKeyDim] at hkdr
  split at hkdr
  · rename_i j hj
    injection hkdr with hje
    have hjk : j = k := Int.ofNat.inj (hje.trans hkd)
    subst hjk
    rw [hswg.1 0]
    have h0k : transposeIdx j 0 = j := by simp [transposeIdx]
    rw [h0k]
    exact pyIndex_ok_getElem? hj
  · exact Except.noConfusion hkdr

/-- C1 witness: the amended claim instantiated on `exPC1`. -/
theorem c1_amended_witness :
    exKwC1.all_dims[0]? = exPC1.array.dimNames[transposeIdx 2 0]? ∧
    exKwC1.ned[1]? = exPC1.array.ned[transposeIdx 2 1]? ∧
    exKwC1.all_dims[0]? = some "d2" :=
  ⟨(c1_amended exPC1 exKwC1 2 rfl rfl).1 0,
   (c1_amended exPC1 exKwC1 2 rfl rfl).2.1 1,
   (c1_amended exPC1 exKwC1 2 rfl rfl).2.2 "d2" rfl⟩

/-! Claim C4: resolved secondary slices. A slice keyed by the key dimension
resolves to index 0 and is dropped; every other slice is kept, keyed by the
dimension's index in the resolved (post-swap) dimension order. -/

/-- Parameters with secondary slices on the key dimension `d1` and on the
non-key dimension `d2`. -/
def exPC4 : ArrayParams :=
  { array := exArrA
    key_dim := Sum.inl 1
    secondary_slices := [("d1", SliceVal.single 7),
                         ("d2", SliceVal.pySlice none none none)] }

/-- The kwargs `__post_init__` computes for `exPC4`: the `d1` slice is
dropped, the `d2` slice is kept at its post-resolution index 2. -/
def exKwC4 : TensorSchemaKwargs :=
  { array := exArrA
    key_dim_index := 1
    fields := ["a1", "a2"]
    all_dims := ["d1", "d0", "d2"]
    ned := [(0, 19), (0, 9), (0, 29)]
    secondary_slices := [(2, SliceVal.pySlice none none none)]
    query_attrs := ["a1", "a2"]
    query_dims := [] }

/-- C4: every entry of the resolved secondary-slice mapping sits at a
positive (non-key) position, and the resolved mapping is exactly the user
mapping re-keyed by each dimension's index in the resolved dimension order
with the index-0 (key dimension) entries dropped. -/
theorem c4_secondary_slices (p : ArrayParams) (kw : TensorSchemaKwargs)
    (h : post_init p = Except.ok kw) :
    (∀ e ∈ kw.secondary_slices, 0 < e.1) ∧
    kw.secondary_slices = p.secondary_slices.filterMap (fun ds =>
      match kw.all_dims.findIdx? (fun d => d == ds.1) with
      | some i => if 0 < i then some (i, ds.2) else none
      | none => none) := by
  have hssi := (post_init_ok_elim h).2.2.2.1
  have heq := secondaryIndices_ok_eq hssi
  refine ⟨?_, heq⟩
  intro e he
  rw [heq] at he
  rcases List.mem_filterMap.mp he with ⟨ds, hds, hfd⟩
  cases hidx : kw.all_dims.findIdx? (fun d => d == ds.1) with
  | none =>
    rw [hidx] at hfd
    exact Option.noConfusion hfd
  | some i =>
    rw [hidx] at hfd
    have hfd' : (if 0 < i then some (i, ds.2) else none) = some e := hfd
    by_cases h0 : 0 < i
    · rw [if_pos h0] at hfd'
      injection hfd' with h'
      subst h'
      exact h0
    · rw [if_neg h0] at hfd'
      exact Option.noConfusion hfd'

/-- C4 witness: for `exPC4` the key-dimension slice is dropped and the
non-key slice is kept at index 2. -/
theorem c4_secondary_slices_witness :
    post_init exPC4 = Except.ok exKwC4 ∧
    exKwC4.secondary_slices = [(2, SliceVal.pySlice none none none)] :=
  ⟨rfl, ((c4_secondary_slices exPC4 exKwC4 rfl).2).trans (by decide)⟩

/-! Claim C7: empty field list defaults to all attributes. -/

/-- Parameters with the default (empty) field list. -/
def exPC7 : ArrayParams := { array := exArrD }

/-- The kwargs `__post_init__` computes for `exPC7`. -/
def exKwC7 : TensorSchemaKwargs :=
  { array := exArrD
    key_dim_index := 0
    fields := ["x"]
    all_dims := ["d0", "d1"]
    ned := [(0, 9), (0, 4)]
    secondary_slices := []
    query_attrs := ["x"]
    query_dims := [] }

/-- C7: with an empty `fields` argument the resolved field list is the
array's full attribute list in attribute order, and the resolved query
options request all attributes and no dimensions. -/
theorem c7_default_fields (p : ArrayParams) (kw : TensorSchemaKwargs)
    (h : post_init p = Except.ok kw) (hf : p.fields = []) :
    kw.fields = p.array.attrNames ∧ kw.query_attrs = p.array.attrNames ∧
    kw.query_dims = [] := by
  have h1 := (post_init_ok_elim h).1
  rw [hf] at h1
  unfold resolveFields at h1
  injection h1 with h2
  have ha : p.array.attrNames = kw.query_attrs := congrArg (fun t => t.1) h2
  have hd : ([] : List String) = kw.query_dims :=
    congrArg (fun t => t.2.1) h2
  have hff : p.array.attrNames = kw.fields := congrArg (fun t => t.2.2) h2
  exact ⟨hff.symm, ha.symm, hd.symm⟩

/-- C7 witness: the default field list on the dense example array. -/
theorem c7_default_fields_witness :
    exKwC7.fields = exArrD.attrNames ∧ exKwC7.query_attrs = exArrD.attrNames ∧
    exKwC7.query_dims = [] :=
  c7_default_fields exPC7 exKwC7 rfl rfl

/-! Claim C9: a name that is both an attribute and a dimension is classified
as an attribute, because the attribute membership test comes first. -/

/-- Array in which `pos` is both an attribute name and a dimension name. -/
def exArrOverlap : TDBArray :=
  { attrNames := ["w", "pos"]
    dims := [{ name := "pos", intDtype := true },
             { name := "d1", intDtype := true }]
    sparse := false
    ned := [(0, 9), (0, 9)] }

/-- Parameters requesting the ambiguous field `pos`. -/
def exPC9 : ArrayParams := { array := exArrOverlap, fields := ["pos"] }

/-- The kwargs `__post_init__` computes for `exPC9`: `pos` lands in the
attribute set, not the dimension set. -/
def exKwC9 : TensorSchemaKwargs :=
  { array := exArrOverlap
    key_dim_index := 0
    fields := ["pos"]
    all_dims := ["pos", "d1"]
    ned := [(0, 9), (0, 9)]
    secondary_slices := []
    query_attrs := ["pos"]
    query_dims := [] }

/-- C9: a requested field that is simultaneously an attribute name and a
dimension name is classified as an attribute: it appears in the query's
attribute set and never in its dimension set. -/
theorem c9_attr_precedence (p : ArrayParams) (kw : TensorSchemaKwargs)
    (f : String) (h : post_init p = Except.ok kw) (hf : f ∈ p.fields)
    (ha : f ∈ p.array.attrNames) (_hd : f ∈ p.array.dimNames) :
    f ∈ kw.query_attrs ∧ f ∉ kw.query_dims := by
  have h1 := (post_init_ok_elim h).1
  cases hfs : p.fields with
  | nil =>
    rw [hfs] at hf
    simp at hf
  | cons g rest =>
    rw [hfs] at h1 hf
    unfold resolveFields at h1
    cases hcf : classifyFields (g :: rest) p.array.attrNames
        p.array.dimNames with
    | error e =>
      rw [hcf] at h1
      exact Except.noConfusion h1
    | ok ad =>
      obtain ⟨a, d⟩ := ad
      rw [hcf] at h1
      injection h1 with h2
      have haa : a = kw.query_attrs := congrArg (fun t => t.1) h2
      have hdd : d = kw.query_dims := congrArg (fun t => t.2.1) h2
      constructor
      · rw [← haa]
        exact classifyFields_attr_mem hcf hf ha
      · intro hmem
        have hmd : f ∈ d := by
          rw [hdd]
          exact hmem
        exact classifyFields_dims_disjoint hcf f hmd ha

/-- C9 witness: the ambiguous field `pos` is resolved as an attribute. -/
theorem c9_attr_precedence_witness :
    "pos" ∈ exKwC9.query_attrs ∧ "pos" ∉ exKwC9.query_dims :=
  c9_attr_precedence exPC9 exKwC9 "pos" rfl (by decide) (by decide) (by decide)

/-! Claim C10: unknown secondary-slice keys. Construction indeed always
fails, so no unknown key survives into a resolved `ArrayParams`; but the
failure is not always the `ValueError` of the secondary-slice index lookup,
because an earlier resolution step can fail first (an out-of-range integer
`key_dim` raises `IndexError` before the secondary-slice loop runs). -/

/-- Parameters with an unknown secondary-slice key and an out-of-range
integer key dimension. -/
def exPC10 : ArrayParams :=
  { array := exArrA
    key_dim := Sum.inl 100
    secondary_slices := [("nope", SliceVal.single 1)] }

/-- C10 counterexample: `exPC10` has a secondary-slice key that is not a
dimension name, yet construction fails with `IndexError` (from the key
swap), not with a `ValueError`. -/
theorem c10_counterexample :
    ("nope", SliceVal.single 1) ∈ exPC10.secondary_slices ∧
    "nope" ∉ exPC10.array.dimNames ∧
    post_init exPC10 = Except.error Err.indexError ∧
    Err.isValueError Err.indexError = false :=
  ⟨by decide, by decide, rfl, rfl⟩

/-- C10 (amended): an `ArrayParams` whose `secondary_slices` mapping has a
key that is not a dimension name never finishes construction — some error
is raised (the `ValueError` of the index lookup when the earlier steps
succeed, or the earlier step's own error) — so an unknown secondary-slice
dimension can never survive into a resolved `ArrayParams`. -/
theorem c10_amended (p : ArrayParams) :
    ((∃ ds ∈ p.secondary_slices, ds.1 ∉ p.array.dimNames) →
      ∃ e, post_init p = Except.error e) ∧
    (∀ kw, post_init p = Except.ok kw →
      ∀ ds ∈ p.secondary_slices, ds.1 ∈ p.array.dimNames) := by
  have hok : ∀ kw, post_init p = Except.ok kw →
      ∀ ds ∈ p.secondary_slices, ds.1 ∈ p.array.dimNames := by
    intro kw h ds hds
    obtain ⟨hrf, hkd, hsw, hssi, harr⟩ := post_init_ok_elim h
    have hmem := secondaryIndices_ok_keys hssi ds hds
    exact (applyKeySwap_mem hsw ds.1).mp hmem
  refine ⟨?_, hok⟩
  rintro ⟨ds, hds, hnot⟩
  cases hpi : post_init p with
  | error e => exact ⟨e, rfl⟩
  | ok kw => exact absurd (hok kw hpi ds hds) hnot

/-- C10 witness: a resolved `ArrayParams` only carries known
secondary-slice dimensions. -/
theorem c10_amended_witness : "d2" ∈ exPC4.array.dimNames :=
  (c10_amended exPC4).2 exKwC4 rfl ("d2", SliceVal.pySlice none none none)
    (by decide)

theorem transformTruthy_eq_false {t : Transform} :
    transformTruthy t = false ↔ t = Transform.bool false := by
  cases t with
  | bool b => cases b <;> simp [transformTruthy]
  | func f => simp [transformTruthy]

theorem to_tensor_schema_ok_reduce {p : ArrayParams} {kw : TensorSchemaKwargs}
    {ts : List (TensorKind × Transform)}
    (h : post_init p = Except.ok kw) :
    to_tensor_schema p ts =
      (if inferKind p kw ts ≠ TensorKind.DENSE ∧
          p.secondary_slices.length > 0 then
        Except.error Err.notImplSecondary
      else
        match transformsGet ts (inferKind p kw ts) with
        | Transform.bool false =>
          Except.error (Err.notImplKind (inferKind p kw ts))
        | Transform.bool true =>
          Except.ok { kind := inferKind p kw ts, kwargs := kw,
                      mappedBy := none }
        | Transform.func f =>
          Except.ok { kind := inferKind p kw ts, kwargs := kw,
                      mappedBy := some f }) := by
  unfold to_tensor_schema
  rw [h]

/-! Claim C2: tensor-kind inference. -/

/-- Parameters over the sparse 2-d integer-dimension array. -/
def exPS2 : ArrayParams := { array := exArrS2 }

/-- The kwargs `__post_init__` computes for `exPS2`. -/
def exKwS2 : TensorSchemaKwargs :=
  { array := exArrS2
    key_dim_index := 0
    fields := ["v"]
    all_dims := ["r", "c"]
    ned := [(0, 9), (0, 9)]
    secondary_slices := []
    query_attrs := ["v"]
    query_dims := [] }

/-- C2: the tensor kind chosen by `to_tensor_schema` equals the kind
described by the specification — pinned kind verbatim; else `DENSE` for
dense storage; else `RAGGED` when some non-key dimension has a non-integer
dtype; else `SPARSE_COO` when the array is not 2-dimensional or the
transform table maps `SPARSE_CSR` to `False`; else `SPARSE_CSR` — and a
successfully constructed schema carries exactly that kind. -/
theorem c2_kind_selection (p : ArrayParams) (kw : TensorSchemaKwargs)
    (ts : List (TensorKind × Transform)) (h : post_init p = Except.ok kw) :
    inferKind p kw ts = specTensorKindC2 p kw ts ∧
    (∀ s, to_tensor_schema p ts = Except.ok s →
      s.kind = inferKind p kw ts) := by
  constructor
  · unfold inferKind specTensorKindC2
    cases p.tensor_kind with
    | some k => rfl
    | none =>
      by_cases hs : p.array.sparse = false
      · rw [if_pos hs, if_pos hs]
      · rw [if_neg hs, if_neg hs]
        have hragged : (((kw.all_dims.drop 1).all
            (fun nm => p.array.dimIntByName nm)) = false) ↔
            ((kw.all_dims.drop 1).any
              (fun nm => ! p.array.dimIntByName nm) = true) := by
          simp [List.all_eq_false, List.any_eq_true]
        by_cases hr : ((kw.all_dims.drop 1).all
            (fun nm => p.array.dimIntByName nm)) = false
        · rw [if_pos hr, if_pos (hragged.mp hr)]
        · rw [if_neg hr, if_neg (fun hc => hr (hragged.mpr hc))]
          have hcsr : (p.array.dims.length ≠ 2 ∨
              transformTruthy (transformsGet ts TensorKind.SPARSE_CSR)
                = false) ↔
              (p.array.dims.length ≠ 2 ∨
              transformsGet ts TensorKind.SPARSE_CSR
                = Transform.bool false) :=
            or_congr Iff.rfl transformTruthy_eq_false
          by_cases h2 : p.array.dims.length ≠ 2 ∨
              transformTruthy (transformsGet ts TensorKind.SPARSE_CSR)
                = false
          · rw [if_pos h2, if_pos (hcsr.mp h2)]
          · rw [if_neg h2, if_neg (fun hc => h2 (hcsr.mpr hc))]
  · intro s hs
    rw [to_tensor_schema_ok_reduce h] at hs
    by_cases hcond : inferKind p kw ts ≠ TensorKind.DENSE ∧
        p.secondary_slices.length > 0
    · rw [if_pos hcond] at hs
      exact Except.noConfusion hs
    · rw [if_neg hcond] at hs
      cases htg : transformsGet ts (inferKind p kw ts) with
      | bool b =>
        cases b
        · rw [htg] at hs
          exact Except.noConfusion hs
        · rw [htg] at hs
          injection hs with h'
          rw [← h']
      | func f =>
        rw [htg] at hs
        injection hs with h'
        rw [← h']

/-- C2 witness: kind selection on the sparse 2-d array with an empty
transform table. -/
theorem c2_kind_selection_witness :
    inferKind exPS2 exKwS2 [] = specTensorKindC2 exPS2 exKwS2 [] :=
  (c2_kind_selection exPS2 exKwS2 [] rfl).1

/-! Claim C5: secondary slices are only supported for DENSE tensors. -/

/-- Parameters over the sparse 2-d array with a non-key secondary slice. -/
def exPC5 : ArrayParams :=
  { array := exArrS2, secondary_slices := [("c", SliceVal.single 3)] }

/-- The kwargs `__post_init__` computes for `exPC5`. -/
def exKwC5 : TensorSchemaKwargs :=
  { array := exArrS2
    key_dim_index := 0
    fields := ["v"]
    all_dims := ["r", "c"]
    ned := [(0, 9), (0, 9)]
    secondary_slices := [(1, SliceVal.single 3)]
    query_attrs := ["v"]
    query_dims := [] }

/-- C5: when the chosen kind is not `DENSE` and the user supplied any
secondary slices, `to_tensor_schema` raises `NotImplementedError` before
any read; when the chosen kind is `DENSE` this error is never raised. -/
theorem c5_secondary_requires_dense (p : ArrayParams)
    (kw : TensorSchemaKwargs) (ts : List (TensorKind × Transform))
    (h : post_init p = Except.ok kw) :
    (inferKind p kw ts ≠ TensorKind.DENSE ∧ p.secondary_slices ≠ [] →
      to_tensor_schema p ts = Except.error Err.notImplSecondary) ∧
    (inferKind p kw ts = TensorKind.DENSE →
      to_tensor_schema p ts ≠ Except.error Err.notImplSecondary) := by
  rw [to_tensor_schema_ok_reduce h]
  constructor
  · rintro ⟨hk, hne⟩
    rw [if_pos ⟨hk, List.length_pos.mpr hne⟩]
  · intro hk
    rw [if_neg (fun hc => hc.1 hk)]
    cases htg : transformsGet ts (inferKind p kw ts) with
    | bool b =>
      cases b
      · intro heq
        have heq' : Except.error (Err.notImplKind (inferKind p kw ts)) =
            Except.error Err.notImplSecondary := heq
        injection heq' with h'
        exact Err.noConfusion h'
      · intro heq
        have heq' : (Except.ok (TensorSchema.mk (inferKind p kw ts) kw none) :
            Except Err TensorSchema) =
            Except.error Err.notImplSecondary := heq
        exact Except.noConfusion heq'
    | func f =>
      intro heq
      have heq' : (Except.ok (TensorSchema.mk (inferKind p kw ts) kw (some f)) :
          Except Err TensorSchema) =
          Except.error Err.notImplSecondary := heq
      exact Except.noConfusion heq'

/-- C5 witness: a secondary slice on the sparse array raises
`NotImplementedError`. -/
theorem c5_secondary_requires_dense_witness :
    to_tensor_schema exPC5 [] = Except.error Err.notImplSecondary :=
  (c5_secondary_requires_dense exPC5 exKwC5 [] rfl).1 ⟨by decide, by decide⟩

/-! Claim C6: transform-table handling for the chosen kind. -/

/-- C6: provided the secondary-slice guard does not fire, the transform
table drives the result — the value `False` raises `NotImplementedError`
naming the kind, the value `True` (same as an absent entry, since the
lookup defaults to `True`) returns the schema unwrapped, and a callable
wraps the schema in `MappedTensorSchema` applying it. -/
theorem c6_transform_table (p : ArrayParams) (kw : TensorSchemaKwargs)
    (ts : List (TensorKind × Transform)) (h : post_init p = Except.ok kw)
    (hg : inferKind p kw ts = TensorKind.DENSE ∨ p.secondary_slices = []) :
    (transformsGet ts (inferKind p kw ts) = Transform.bool false →
      to_tensor_schema p ts =
        Except.error (Err.notImplKind (inferKind p kw ts))) ∧
    (transformsGet ts (inferKind p kw ts) = Transform.bool true →
      to_tensor_schema p ts =
        Except.ok { kind := inferKind p kw ts, kwargs := kw,
                    mappedBy := none }) ∧
    (∀ f, transformsGet ts (inferKind p kw ts) = Transform.func f →
      to_tensor_schema p ts =
        Except.ok { kind := inferKind p kw ts, kwargs := kw,
                    mappedBy := some f }) := by
  rw [to_tensor_schema_ok_reduce h]
  have hcond : ¬(inferKind p kw ts ≠ TensorKind.DENSE ∧
      p.secondary_slices.length > 0) := by
    rcases hg with hg | hg
    · exact fun hc => hc.1 hg
    · intro hc
      rw [hg] at hc
      simp at hc
  rw [if_neg hcond]
  refine ⟨?_, ?_, ?_⟩
  · intro htg
    rw [htg]
  · intro htg
    rw [htg]
  · intro f htg
    rw [htg]

/-- C6 witness: a callable transform for `DENSE` wraps the schema in
`MappedTensorSchema`. -/
theorem c6_transform_table_witness :
    to_tensor_schema exPC7 [(TensorKind.DENSE, Transform.func 7)] =
      Except.ok { kind := TensorKind.DENSE, kwargs := exKwC7,
                  mappedBy := some 7 } :=
  (c6_transform_table exPC7 exKwC7 [(TensorKind.DENSE, Transform.func 7)]
    rfl (Or.inl rfl)).2.2 7 rfl

/-! Claim C8: the non-dense secondary-slice check inspects the raw
user-supplied mapping, not the resolved one, so it fires even when every
supplied slice was dropped during resolution. -/

/-- Parameters whose only secondary slice targets the key dimension. -/
def exPC8 : ArrayParams :=
  { array := exArrS2, secondary_slices := [("r", SliceVal.single 0)] }

/-- The kwargs `__post_init__` computes for `exPC8`: the resolved
secondary-slice mapping is empty. -/
def exKwC8 : TensorSchemaKwargs :=
  { array := exArrS2
    key_dim_index := 0
    fields := ["v"]
    all_dims := ["r", "c"]
    ned := [(0, 9), (0, 9)]
    secondary_slices := []
    query_attrs := ["v"]
    query_dims := [] }

/-- C8: with a non-empty raw `secondary_slices` mapping whose entries were
all dropped during resolution (the resolved mapping is empty), a non-DENSE
chosen kind still raises `NotImplementedError`, because the check reads the
raw user mapping. -/
theorem c8_raw_secondary_checked (p : ArrayParams) (kw : TensorSchemaKwargs)
    (ts : List (TensorKind × Transform)) (h : post_init p = Except.ok kw)
    (hne : p.secondary_slices ≠ []) (_hres : kw.secondary_slices = [])
    (hk : inferKind p kw ts ≠ TensorKind.DENSE) :
    to_tensor_schema p ts = Except.error Err.notImplSecondary := by
  rw [to_tensor_schema_ok_reduce h,
    if_pos ⟨hk, List.length_pos.mpr hne⟩]

/-- C8 witness: a key-dimension-only secondary slice on the sparse array
still raises `NotImplementedError`. -/
theorem c8_raw_secondary_checked_witness :
    to_tensor_schema exPC8 [] = Except.error Err.notImplSecondary :=
  c8_raw_secondary_checked exPC8 exKwC8 [] rfl (by decide) rfl (by decide)
